import Mathlib

/-!
Verification development for the owner-statement PDF parser of the
dulinproperties repository (src/utils/ownerPacketParser.js).

The JavaScript source is shallowly embedded as follows.

* JS strings are modelled as `List Char` (abbreviated `Str`); character
  classes (`\s`, `\w`, `[A-Z]`, lower-casing) are modelled over ASCII,
  which covers every literal the parser compares against.
* JS numbers are modelled as exact rationals `ℚ`.  All money strings the
  parser classifies have at most two decimal digits, so `parseFloat` on
  them is exact; we do not model IEEE-754 rounding.  Exponent forms never
  occur in this pipeline's inputs and are not modelled in `parseFloatQ`.
* The regular expressions of the source are compiled by hand into
  deterministic matchers.  Each hand compilation is justified in a comment
  at the definition: for these particular patterns, the adjacent character
  classes are disjoint, so greedy matching with backtracking coincides
  with the maximal-munch matchers written here.
* `Array.prototype.sort` (stable, total numeric comparator) is modelled by
  a stable insertion sort `stableSort`.
* The `pdfjs` extraction layer is outside the embedding: `extractPageRows`
  is entered at the already-extracted fragment list (text, rounded x/y,
  width), exactly the data the grouping loop of the source consumes.
-/

namespace OwnerPacket

/-- JS strings as lists of characters. -/
abbrev Str := List Char

/-- A positioned text fragment: `{ text, x, y, width }` as built at
ownerPacketParser.js lines 32-37 (coordinates already rounded there). -/
structure Item where
  text : Str
  x : ℚ
  y : ℚ
  width : ℚ
deriving DecidableEq

/-- Kernel-computable addition on `ℚ` (the library's `Rat.add` is
`@[irreducible]`); proved equal to `+` in `qadd_eq` below. -/
def qadd (a b : ℚ) : ℚ := mkRat (a.num * b.den + b.num * a.den) (a.den * b.den)

/-- Kernel-computable subtraction on `ℚ`; proved equal to `-` below. -/
def qsub (a b : ℚ) : ℚ := mkRat (a.num * b.den - b.num * a.den) (a.den * b.den)

theorem qadd_eq (a b : ℚ) : qadd a b = a + b := by
  have ha : (a.den : ℤ) ≠ 0 := Int.ofNat_ne_zero.2 a.den_nz
  have hb : (b.den : ℤ) ≠ 0 := Int.ofNat_ne_zero.2 b.den_nz
  rw [qadd, Rat.mkRat_eq_divInt]
  conv_rhs => rw [← Rat.num_divInt_den a, ← Rat.num_divInt_den b]
  rw [Rat.divInt_add_divInt _ _ ha hb]
  push_cast
  ring_nf

theorem qsub_eq (a b : ℚ) : qsub a b = a - b := by
  have ha : (a.den : ℤ) ≠ 0 := Int.ofNat_ne_zero.2 a.den_nz
  have hb : (b.den : ℤ) ≠ 0 := Int.ofNat_ne_zero.2 b.den_nz
  rw [qsub, Rat.mkRat_eq_divInt]
  conv_rhs => rw [← Rat.num_divInt_den a, ← Rat.num_divInt_den b]
  rw [Rat.divInt_sub_divInt _ _ ha hb]
  push_cast
  ring_nf

/-- The term `Math.abs` on rationals. -/
def jsAbs (q : ℚ) : ℚ := if q < 0 then -q else q

theorem jsAbs_nonneg (q : ℚ) : 0 ≤ jsAbs q := by
  unfold jsAbs
  split
  · linarith
  · linarith

/-- ASCII model of the JS `\s` class (whitespace). -/
def isSpaceChar (c : Char) : Bool :=
  c = ' ' || c = '\t' || c = '\n' || c = '\r' || c = '\x0b' || c = '\x0c'

/-- ASCII model of the JS `\w` class (word character). -/
def isWordChar (c : Char) : Bool := c.isAlpha || c.isDigit || c = '_'

/-- ASCII model of `String.prototype.toLowerCase`. -/
def lowerStr (s : Str) : Str := s.map Char.toLower

/-- ASCII model of `String.prototype.trim`. -/
def trimStr (s : Str) : Str :=
  ((s.dropWhile isSpaceChar).reverse.dropWhile isSpaceChar).reverse

/-- The term `pat` occurs as a contiguous substring of the remaining input
(the workhorse of `String.prototype.includes`). -/
def strIncludes (pat : Str) : Str → Bool
  | [] => pat.isEmpty
  | c :: t => pat.isPrefixOf (c :: t) || strIncludes pat t

/-- The term `hay.includes(pat)` of JS. -/
def incl (hay pat : Str) : Bool := strIncludes pat hay

/-- Stable insertion of `x` behind every already-placed element `y` with
`le y x`; used to model the (stable) `Array.prototype.sort`. -/
def stInsert (le : α → α → Bool) (x : α) : List α → List α
  | [] => [x]
  | y :: t => if le y x then y :: stInsert le x t else x :: y :: t

/-- Stable sort by the total boolean preorder `le`; agrees with the stable
JS `Array.prototype.sort` under a numeric comparator. -/
def stableSort (le : α → α → Bool) (l : List α) : List α :=
  l.foldl (fun acc x => stInsert le x acc) []

/-!  ## Field interpreters (ownerPacketParser.js lines 82-145)  -/

/-- The numeric prefix accepted by JS `parseFloat`: optional sign, integer
digits, optional fraction.  `none` models `NaN`.  (Exponent notation never
reaches `parseFloat` in this parser and is not modelled.) -/
def parseFloatQ (s : Str) : Option ℚ :=
  let (sgn, t) : Int × Str :=
    match s with
    | '-' :: t => (-1, t)
    | '+' :: t => (1, t)
    | t => (1, t)
  let ip := t.takeWhile Char.isDigit
  let r := t.dropWhile Char.isDigit
  let fp :=
    match r with
    | '.' :: u => u.takeWhile Char.isDigit
    | _ => []
  if ip.isEmpty && fp.isEmpty then none
  else
    let natOf : Str → Nat := fun ds => ds.foldl (fun n c => 10 * n + (c.toNat - '0'.toNat)) 0
    some (mkRat (sgn * (natOf ip * 10 ^ fp.length + natOf fp)) (10 ^ fp.length))

/-- The term `parseMoney` (lines 92-99): strip `$`, `,` and whitespace, read
`(...)` as accounting negative, and coerce `NaN` to `0` via `|| 0`. -/
def parseMoney (s : Str) : ℚ :=
  if s.isEmpty then 0
  else
    let cleaned := s.filter fun c => !(c = '$' || c = ',' || isSpaceChar c)
    if cleaned.head? = some '(' ∧ cleaned.getLast? = some ')' then
      match parseFloatQ ((cleaned.drop 1).dropLast) with
      | some v => -v
      | none => 0
    else
      match parseFloatQ cleaned with
      | some v => v
      | none => 0

/-- Hand compilation of `^(\d{1,2})[\/\-](\d{1,2})[\/\-](\d{2,4})$`
(line 108).  The separators are not digits and the pattern is anchored,
so the greedy bounded repetitions succeed exactly on the maximal digit
runs, whose lengths must lie in the stated ranges. -/
def matchMDY (s : Str) : Option (Str × Str × Str) :=
  let d1 := s.takeWhile Char.isDigit
  let r1 := s.dropWhile Char.isDigit
  if 1 ≤ d1.length ∧ d1.length ≤ 2 then
    match r1 with
    | c1 :: r2 =>
      if c1 = '/' ∨ c1 = '-' then
        let d2 := r2.takeWhile Char.isDigit
        let r3 := r2.dropWhile Char.isDigit
        if 1 ≤ d2.length ∧ d2.length ≤ 2 then
          match r3 with
          | c2 :: r4 =>
            if c2 = '/' ∨ c2 = '-' then
              let d3 := r4.takeWhile Char.isDigit
              let r5 := r4.dropWhile Char.isDigit
              if 2 ≤ d3.length ∧ d3.length ≤ 4 ∧ r5.isEmpty then
                some (d1, d2, d3)
              else none
            else none
          | [] => none
        else none
      else none
    | [] => none
  else none

/-- Anchored `^\d{4}-\d{2}-\d{2}$` test (line 114). -/
def isoTest (s : Str) : Bool :=
  match s with
  | [a, b, c, d, s1, e, f, s2, g, h] =>
    a.isDigit && b.isDigit && c.isDigit && d.isDigit && s1 = '-' &&
    e.isDigit && f.isDigit && s2 = '-' && g.isDigit && h.isDigit
  | _ => false

/-- The term `String.prototype.padStart(2, '0')`. -/
def pad2 (s : Str) : Str :=
  if s.length ≥ 2 then s else List.replicate (2 - s.length) '0' ++ s

/-- The term `parseDate` (lines 104-116). -/
def parseDate (s : Str) : Str :=
  if s.isEmpty then []
  else
    let t := trimStr s
    match matchMDY t with
    | some (m, d, y) =>
      let year := if y.length = 2 then '2' :: '0' :: y else y
      year ++ ['-'] ++ pad2 m ++ ['-'] ++ pad2 d
    | none => if isoTest t then t else []

/-- One character of `[\d,]`. -/
def isDigitComma (c : Char) : Bool := c.isDigit || c = ','

/-- Attempt of `\$?\s*[\d,]+\.\d{2}` at the current position (line 86,
first alternative).  `$` and the whitespace are disjoint from `[\d,]`,
and `.` is not in `[\d,]`, so the greedy repetitions are maximal-munch
and need no backtracking. -/
def moneyAt1 (s : Str) : Bool :=
  let s1 := match s with | '$' :: t => t | t => t
  let s2 := s1.dropWhile isSpaceChar
  let run := s2.takeWhile isDigitComma
  let r := s2.dropWhile isDigitComma
  !run.isEmpty &&
    match r with
    | '.' :: a :: b :: _ => a.isDigit && b.isDigit
    | _ => false

/-- Attempt of `\([\d,]+\.\d{2}\)` at the current position (line 86,
second alternative). -/
def moneyAt2 (s : Str) : Bool :=
  match s with
  | '(' :: t =>
    let run := t.takeWhile isDigitComma
    let r := t.dropWhile isDigitComma
    !run.isEmpty &&
      match r with
      | '.' :: a :: b :: c :: _ => a.isDigit && b.isDigit && c = ')'
      | _ => false
  | _ => false

/-- Unanchored search used by `RegExp.test`. -/
def searchBool (p : Str → Bool) : Str → Bool
  | [] => p []
  | c :: t => p (c :: t) || searchBool p t

/-- The term `hasMoneyAmount` (lines 85-87). -/
def hasMoneyAmount (text : Str) : Bool :=
  searchBool moneyAt1 text || searchBool moneyAt2 text

/-- Attempt of `[\d,]+\.\d{2}` at the current position, returning the
matched text (used by the cash-summary extraction, lines 195-216). -/
def numMatchAt (s : Str) : Option Str :=
  let run := s.takeWhile isDigitComma
  let r := s.dropWhile isDigitComma
  if run.isEmpty then none
  else
    match r with
    | '.' :: a :: b :: _ =>
      if a.isDigit && b.isDigit then some (run ++ ['.', a, b]) else none
    | _ => none

/-- Leftmost match of `[\d,]+\.\d{2}` (`String.prototype.match`, returning
the matched text of the first match). -/
def firstNumMatch : Str → Option Str
  | [] => none
  | c :: t =>
    match numMatchAt (c :: t) with
    | some m => some m
    | none => firstNumMatch t

/-!  ## Statement-period detection (lines 122-145)

Hand compilation of
`(\w{3,9})\s+(\d{1,2}),?\s+(\d{4})\s*[-–]\s*(\w{3,9})\s+(\d{1,2}),?\s+(\d{4})`.
All adjacent classes (`\w` vs `\s`, `\d` vs `\s`/`,`/dash) are disjoint,
so each greedy bounded repetition either consumes its maximal run (with
the length bound satisfied) or the whole attempt fails; no backtracking
can rescue a failed attempt at a given start position.  -/

/-- The term `(\w{3,9})` followed by something outside `\w`: the maximal word run
must have length 3..9. -/
def wordRun39 (s : Str) : Option (Str × Str) :=
  let run := s.takeWhile isWordChar
  let r := s.dropWhile isWordChar
  if 3 ≤ run.length ∧ run.length ≤ 9 then some (run, r) else none

/-- The term `(\d{1,2})` followed by something outside `\d`. -/
def digitRun12 (s : Str) : Option (Str × Str) :=
  let run := s.takeWhile Char.isDigit
  let r := s.dropWhile Char.isDigit
  if 1 ≤ run.length ∧ run.length ≤ 2 then some (run, r) else none

/-- The term `(\d{4})`: exactly four digits consumed (more may follow the whole
pattern, but not inside an attempt followed by a non-digit requirement). -/
def digitRun4 (s : Str) : Option (Str × Str) :=
  match s with
  | a :: b :: c :: d :: r =>
    if a.isDigit && b.isDigit && c.isDigit && d.isDigit then
      some ([a, b, c, d], r)
    else none
  | _ => none

/-- The term `\s+`. -/
def spaces1 (s : Str) : Option Str :=
  if (s.takeWhile isSpaceChar).isEmpty then none else some (s.dropWhile isSpaceChar)

/-- The term `,?`. -/
def commaOpt (s : Str) : Str :=
  match s with
  | ',' :: t => t
  | t => t

/-- The term `[-–]`. -/
def dashChar (s : Str) : Option Str :=
  match s with
  | c :: t => if c = '-' ∨ c = '–' then some t else none
  | [] => none

/-- The six capture groups of the statement-period pattern. -/
structure PeriodCaps where
  w1 : Str
  d1 : Str
  y1 : Str
  w2 : Str
  d2 : Str
  y2 : Str
deriving DecidableEq

/-- One attempt of the full statement-period pattern at a position. -/
def periodAt (s : Str) : Option PeriodCaps := do
  let (w1, r1) ← wordRun39 s
  let r2 ← spaces1 r1
  let (d1, r3) ← digitRun12 r2
  let r4 ← spaces1 (commaOpt r3)
  let (y1, r5) ← digitRun4 r4
  let r6 ← dashChar (r5.dropWhile isSpaceChar)
  let (w2, r7) ← wordRun39 (r6.dropWhile isSpaceChar)
  let r8 ← spaces1 r7
  let (d2, r9) ← digitRun12 r8
  let r10 ← spaces1 (commaOpt r9)
  let (y2, _) ← digitRun4 r10
  pure ⟨w1, d1, y1, w2, d2, y2⟩

/-- Leftmost match of the statement-period pattern. -/
def periodSearch : Str → Option PeriodCaps
  | [] => none
  | c :: t =>
    match periodAt (c :: t) with
    | some r => some r
    | none => periodSearch t

/-- The fixed month-name lookup table of lines 127-134. -/
def monthsTable : List (Str × Str) :=
  [("jan".data, "01".data), ("january".data, "01".data),
   ("feb".data, "02".data), ("february".data, "02".data),
   ("mar".data, "03".data), ("march".data, "03".data),
   ("apr".data, "04".data), ("april".data, "04".data),
   ("may".data, "05".data),
   ("jun".data, "06".data), ("june".data, "06".data),
   ("jul".data, "07".data), ("july".data, "07".data),
   ("aug".data, "08".data), ("august".data, "08".data),
   ("sep".data, "09".data), ("september".data, "09".data),
   ("oct".data, "10".data), ("october".data, "10".data),
   ("nov".data, "11".data), ("november".data, "11".data),
   ("dec".data, "12".data), ("december".data, "12".data)]

/-- The term `months[w.toLowerCase()] || '01'` (lines 135-136). -/
def monthNum (w : Str) : Str :=
  match monthsTable.find? (fun kv => kv.1 = lowerStr w) with
  | some kv => kv.2
  | none => "01".data

/-- The `StatementPeriod` record (lines 137-142). -/
structure StatementPeriod where
  startDate : Str
  endDate : Str
  monthStr : Str
  displayPeriod : Str
deriving DecidableEq

/-- The term `detectStatementPeriod` (lines 122-145). -/
def detectStatementPeriod (allText : Str) : Option StatementPeriod :=
  match periodSearch allText with
  | some m =>
    some
      { startDate := m.y1 ++ ['-'] ++ monthNum m.w1 ++ ['-'] ++ pad2 m.d1
        endDate := m.y2 ++ ['-'] ++ monthNum m.w2 ++ ['-'] ++ pad2 m.d2
        monthStr := m.y2 ++ ['-'] ++ monthNum m.w2
        displayPeriod :=
          m.w1 ++ [' '] ++ m.d1 ++ [',', ' '] ++ m.y1 ++ [' ', '–', ' '] ++
          m.w2 ++ [' '] ++ m.d2 ++ [',', ' '] ++ m.y2 }
  | none => none

/-!  ## Page text extractor (lines 39-60)

`extractPageRows` is entered at the already-extracted fragment list; the
grouping loop (lines 40-52) keeps a `Map` in insertion order whose keys
are the first-seen y of each cluster. -/

/-- One step of the grouping loop of lines 41-52: find the first existing
bucket key within 3 units of `it.y` and push there, else open a new
bucket keyed by `it.y` at the end (JS `Map` preserves insertion order). -/
def addToRowMap : List (ℚ × List Item) → Item → List (ℚ × List Item)
  | [], it => [(it.y, [it])]
  | (k, its) :: rest, it =>
    if jsAbs (qsub k it.y) ≤ 3 then (k, its ++ [it]) :: rest
    else (k, its) :: addToRowMap rest it

/-- The full grouping pass. -/
def rowMapOf (items : List Item) : List (ℚ × List Item) :=
  items.foldl addToRowMap []

/-- The term `extractPageRows` from the grouping on: buckets sorted by descending
key (line 56, stable sort), fragments in each row sorted by ascending x
(line 57, stable sort). -/
def extractPageRows (items : List Item) : List (List Item) :=
  (stableSort (fun a b => decide (b.1 ≤ a.1)) (rowMapOf items)).map
    (fun kv => stableSort (fun a b => decide (a.x ≤ b.x)) kv.2)

/-!  ## Row text reconstructor (lines 65-80)  -/

/-- The term `rowToText` (lines 65-80): fold over the fragments tracking the right
edge of the previous fragment, inserting a tab for gaps over 15 units and
a space for gaps over 5. -/
def rowToText (row : List Item) : Str :=
  (row.foldl
    (fun (st : Str × ℚ) it =>
      let gap := qsub it.x st.2
      let sep : Str :=
        if gap > 15 ∧ ¬st.1.isEmpty then ['\t']
        else if gap > 5 ∧ ¬st.1.isEmpty then [' ']
        else []
      (st.1 ++ sep ++ it.text,
       qadd it.x (if it.width = 0 then mkRat (5 * it.text.length) 1 else it.width)))
    ([], 0)).1

/-!  ## Property address extraction (lines 152-173)  -/

/-- JS `.` (dot) character class: anything but a line terminator. -/
def charDot (c : Char) : Bool := !(c = '\n' || c = '\r')

/-- The term `\s*(.+)` tail of the dash pattern: greedy `\s*` gives characters
back one at a time until the greedy dot-run `(.+)` is nonempty. -/
def tailTry (r : Str) : Nat → Option Str
  | 0 =>
    let run := r.takeWhile charDot
    if run.isEmpty then none else some run
  | j + 1 =>
    let run := (r.drop (j + 1)).takeWhile charDot
    if run.isEmpty then tailTry r j else some run

/-- The term `\s*(.+)` with JS greedy backtracking. -/
def tailMatch (r : Str) : Option Str :=
  tailTry r (r.takeWhile isSpaceChar).length

/-- The rest of `^(.+?)\s*[-–]\s*\w+\s*[-–]\s*(.+)` after the lazy group
consumed `k` characters.  Between the fixed parts the classes are
disjoint (`\s` vs dash vs `\w`), so they are maximal-munch; only the
final `\s*(.+)` needs give-back, handled by `tailMatch`. -/
def dashAddrAfter (r : Str) : Option Str := do
  let r1 ← dashChar (r.dropWhile isSpaceChar)
  let r2 := r1.dropWhile isSpaceChar
  let w := r2.takeWhile isWordChar
  if w.isEmpty then none
  else
    let r3 ← dashChar ((r2.dropWhile isWordChar).dropWhile isSpaceChar)
    tailMatch r3

/-- Try the lazy `(.+?)` at length `k`, then `k+1`, ... (JS lazy order:
shortest first). -/
def dashAddrFrom (t : Str) (k : Nat) : Nat → Option (Str × Str)
  | 0 => none
  | fuel + 1 =>
    let pre := t.take k
    if pre.length = k ∧ pre.all charDot then
      match dashAddrAfter (t.drop k) with
      | some cap2 => some (pre, cap2)
      | none => dashAddrFrom t (k + 1) fuel
    else none

/-- One match of `^(.+?)\s*[-–]\s*\w+\s*[-–]\s*(.+)` (line 156). -/
def dashAddrMatch (t : Str) : Option (Str × Str) :=
  dashAddrFrom t 1 t.length

/-- The term `PropertyAddress` (lines 158-161). -/
structure Addr where
  shortAddress : Str
  fullAddress : Str
deriving DecidableEq

/-- The term `^\d+\s+\w` test (line 168). -/
def numStartTest (s : Str) : Bool :=
  let ds := s.takeWhile Char.isDigit
  let r := s.dropWhile Char.isDigit
  if ds.isEmpty then false
  else
    let sp := r.takeWhile isSpaceChar
    let r2 := r.dropWhile isSpaceChar
    !sp.isEmpty &&
      match r2 with
      | c :: _ => isWordChar c
      | [] => false

/-- The street-suffix keywords of line 168; the alternation test is
substring existence, case-insensitive. -/
def streetKw (s : Str) : Bool :=
  ["st".data, "rd".data, "ave".data, "dr".data, "ln".data, "ct".data,
   "blvd".data, "way".data, "pl".data, "cir".data, "loop".data,
   "pkwy".data].any (incl (lowerStr s))

/-- The term `text.split(/[-–,]/)[0]` (line 169). -/
def splitFirstSeg (s : Str) : Str :=
  s.takeWhile fun c => !(c = '-' || c = '–' || c = ',')

/-- The term `extractPropertyAddress` (lines 152-173). -/
def extractPropertyAddress (rows : List (List Item)) : Option Addr :=
  match
    (rows.take 8).findSome? fun row =>
      (dashAddrMatch (rowToText row)).map fun m =>
        { shortAddress := trimStr m.1, fullAddress := trimStr m.2 }
  with
  | some a => some a
  | none =>
    (rows.take 6).findSome? fun row =>
      let text := rowToText row
      if numStartTest text && streetKw text then
        some { shortAddress := trimStr (splitFirstSeg text), fullAddress := text }
      else none

/-!  ## Transaction-row classifier (lines 229-391)  -/

/-- The term `Transaction` (lines 383-391). -/
structure Tx where
  date : Str
  payee : Str
  type : Str
  description : Str
  cashIn : ℚ
  cashOut : ℚ
  balance : ℚ
deriving DecidableEq

/-- The term `^\d{1,2}\/\d{1,2}\/\d{2,4}$` (line 244); slash separators only. -/
def rawDateTest (s : Str) : Bool :=
  let d1 := s.takeWhile Char.isDigit
  let r1 := s.dropWhile Char.isDigit
  (1 ≤ d1.length && d1.length ≤ 2) &&
    match r1 with
    | '/' :: r2 =>
      let d2 := r2.takeWhile Char.isDigit
      let r3 := r2.dropWhile Char.isDigit
      (1 ≤ d2.length && d2.length ≤ 2) &&
        match r3 with
        | '/' :: r4 =>
          let d3 := r4.takeWhile Char.isDigit
          let r5 := r4.dropWhile Char.isDigit
          2 ≤ d3.length && d3.length ≤ 4 && r5.isEmpty
        | _ => false
    | _ => false

/-- Anchored `^[\$\(\-]?\s*[\d,]+\.\d{2}\)?$` on the whitespace-stripped
text (line 264).  After stripping, `\s*` only matches the empty string;
the optional leading class cannot overlap `[\d,]`, and `.` terminates the
digit run, so the test is deterministic. -/
def amountShape (s : Str) : Bool :=
  let s1 :=
    match s with
    | c :: t => if c = '$' || c = '(' || c = '-' then t else c :: t
    | [] => []
  let run := s1.takeWhile isDigitComma
  let r := s1.dropWhile isDigitComma
  !run.isEmpty &&
    match r with
    | '.' :: a :: b :: r2 =>
      a.isDigit && b.isDigit && (r2.isEmpty || r2 = [')'])
    | _ => false

/-- The term `item.text.replace(/\s/g, '')` then the amount-shape test. -/
def isAmountItem (it : Item) : Bool :=
  amountShape (it.text.filter fun c => !isSpaceChar c)

/-- The `amounts` array of lines 260-269: amount-shaped fragments paired
with their `parseMoney` value. -/
def amountsOf (row : List Item) : List (Item × ℚ) :=
  (row.filter isAmountItem).map fun it => (it, parseMoney it.text)

/-- The `nonAmountItems` array of lines 260-269. -/
def nonAmountsOf (row : List Item) : List Item :=
  row.filter fun it => !isAmountItem it

/-- The term `textParts` (line 275): non-amount fragments whose text differs from
the first fragment's text (note: the source compares the *text*, so any
fragment whose text equals the date string is excluded). -/
def textPartsOf (row : List Item) : List Item :=
  match row with
  | [] => []
  | f :: _ => (nonAmountsOf row).filter fun it => it.text ≠ f.text

/-- The `knownTypes` vocabulary (lines 278-282). -/
def knownTypes : List Str :=
  ["rent income".data, "management fees".data, "bill".data,
   "owner distribution".data, "beginning cash balance".data,
   "ending cash balance".data, "deposit".data, "credit".data,
   "late fee".data, "nsf fee".data, "security deposit".data,
   "prepaid rent".data]

/-- The term `^\d+$` (line 292). -/
def pureDigits (s : Str) : Bool := !s.isEmpty && s.all Char.isDigit

/-- The term `^[A-Z]{2,4}\d+` (line 292): the maximal uppercase run must have
length 2..4 (shorter greedy splits end on an uppercase letter, which is
not a digit) and be followed by a digit. -/
def refCodeTest (s : Str) : Bool :=
  let u := s.takeWhile Char.isUpper
  let r := s.dropWhile Char.isUpper
  (2 ≤ u.length && u.length ≤ 4) &&
    match r with
    | c :: _ => c.isDigit
    | [] => false

/-- The term `^#?\d{4,}` (line 292). -/
def hashNumTest (s : Str) : Bool :=
  let s1 := match s with | '#' :: t => t | t => t
  4 ≤ (s1.takeWhile Char.isDigit).length

/-- One step of the type/payee/description loop (lines 289-306); state is
`(type, payee, descriptionParts)`. -/
def partsStep (st : Str × Str × List Str) (it : Item) : Str × Str × List Str :=
  let pl := lowerStr it.text
  if pureDigits it.text || refCodeTest it.text || hashNumTest it.text then st
  else if st.1.isEmpty && knownTypes.any (incl pl) then (it.text, st.2.1, st.2.2)
  else if st.2.1.isEmpty then (st.1, it.text, st.2.2)
  else (st.1, st.2.1, st.2.2 ++ [it.text])

/-- The full type/payee/description loop. -/
def partsLoop (parts : List Item) : Str × Str × List Str :=
  parts.foldl partsStep ([], [], [])

/-- The fallback of lines 309-316: first known type contained in the full
lowercased row text (the stored type is then the lowercase table entry). -/
def typeFallback (textLower : Str) : Str :=
  match knownTypes.find? (incl textLower) with
  | some t => t
  | none => []

/-- The final `type` of a row: the loop's capture, else the fallback. -/
def detectType (row : List Item) : Str :=
  let t0 := (partsLoop (textPartsOf row)).1
  if t0.isEmpty then typeFallback (lowerStr (rowToText row)) else t0

/-- The final `payee` of a row. -/
def detectPayee (row : List Item) : Str :=
  (partsLoop (textPartsOf row)).2.1

/-- The final `descriptionParts` of a row. -/
def descPartsOf (row : List Item) : List Str :=
  (partsLoop (textPartsOf row)).2.2

/-- The term `amounts.sort((a, b) => a.x - b.x)` (line 326): stable ascending by x. -/
def sortedAmountsOf (row : List Item) : List (Item × ℚ) :=
  stableSort (fun a b => decide (a.1.x ≤ b.1.x)) (amountsOf row)

/-- The term `isIncomeType` (lines 330-332), computed from the lowercased type. -/
def isIncomeTypeOf (row : List Item) : Bool :=
  let tl := lowerStr (detectType row)
  incl tl ("rent".data) || incl tl ("income".data) || incl tl ("deposit".data) ||
    incl tl ("late fee".data) || incl tl ("credit".data) || incl tl ("prepaid".data)

/-- The two-amount gap guard of line 356: gap over 100 units and the type
contains none of bill/management/owner. -/
def gapRouteOk (row : List Item) (a0 a1 : Item × ℚ) : Bool :=
  let tl := lowerStr (detectType row)
  qsub a1.1.x a0.1.x > 100 && !incl tl ("bill".data) &&
    !incl tl ("management".data) && !incl tl ("owner".data)

/-- The `(cashIn, cashOut, balance)` assignment of lines 321-370. -/
def cashTriple (row : List Item) : ℚ × ℚ × ℚ :=
  match sortedAmountsOf row with
  | a0 :: a1 :: a2 :: _ => (a0.2, a1.2, a2.2)
  | [a0, a1] =>
    if isIncomeTypeOf row then (a0.2, 0, a1.2)
    else if gapRouteOk row a0 a1 then (a0.2, 0, a1.2)
    else (0, a0.2, a1.2)
  | [a0] =>
    if isIncomeTypeOf row then (a0.2, 0, 0) else (0, a0.2, 0)
  | [] => (0, 0, 0)

/-- The balance-row guard of lines 372-375: `typeCheck = (type || textLower)`
— the *case-sensitive* `includes` runs on the captured type when one was
detected, and on the lowercased full text only when no type was found. -/
def typeCheckFlag (row : List Item) : Bool :=
  let ty := detectType row
  let tc := if ty.isEmpty then lowerStr (rowToText row) else ty
  incl tc ("beginning cash balance".data) || incl tc ("ending cash balance".data)

/-- The term `descriptionParts.join(' ')`. -/
def joinSpace : List Str → Str
  | [] => []
  | [s] => s
  | s :: t => s ++ [' '] ++ joinSpace t

/-- The `description` field of lines 378-381 and 387. -/
def descrOf (row : List Item) : Str :=
  let payee := detectPayee row
  let ty := detectType row
  let disp := if !payee.isEmpty then payee
              else if !ty.isEmpty then ty
              else "Unknown".data
  let extra := joinSpace (descPartsOf row)
  if extra.isEmpty then disp else disp ++ [' ', '-', ' '] ++ extra

/-- The per-row body of the transaction loop (lines 231-391), as a pure
function of the row: `none` when any of the skip conditions fires, else
the pushed transaction. -/
def rowTransaction (row : List Item) : Option Tx :=
  let text := rowToText row
  let textLower := lowerStr text
  if text.isEmpty || incl textLower ("page ".data) || incl textLower ("total".data) then
    none
  else if row.length < 3 then none
  else
    match row with
    | [] => none
    | f :: _ =>
      let date := parseDate f.text
      if date.isEmpty && !rawDateTest f.text then none
      else if (amountsOf row).isEmpty then none
      else if typeCheckFlag row then none
      else
        some
          { date := date
            payee := detectPayee row
            type := detectType row
            description := descrOf row
            cashIn := jsAbs (cashTriple row).1
            cashOut := jsAbs (cashTriple row).2.1
            balance := (cashTriple row).2.2 }

/-!  ## Cash-summary extraction (lines 190-220)  -/

/-- Strip an exact prefix. -/
def dropPre : Str → Str → Option Str
  | [], s => some s
  | _ :: _, [] => none
  | c :: p, d :: s => if c = d then dropPre p s else none

/-- Attempt of `w1\s*w2` at a position (the summary label patterns such
as `beginning\s*cash`; `\s*` is maximal-munch because no label starts
with whitespace). -/
def gapWordAt (w1 w2 : Str) (t : Str) : Bool :=
  match dropPre w1 t with
  | some r => (dropPre w2 (r.dropWhile isSpaceChar)).isSome
  | none => false

/-- The term `/w1\s*w2/i.test(s)` modelled as an unanchored search over the
lowercased text. -/
def gapWordTest (w1 w2 : Str) (s : Str) : Bool :=
  searchBool (gapWordAt w1 w2) (lowerStr s)

/-- The term `CashSummary`: sparse named balance fields (absent when the label was
not seen). -/
structure CashSummary where
  beginningBalance : Option ℚ := none
  cashIn : Option ℚ := none
  cashOut : Option ℚ := none
  managementFees : Option ℚ := none
  ownerDisbursements : Option ℚ := none
  endingBalance : Option ℚ := none
deriving DecidableEq

/-- The six label tests applied to one summary row (lines 194-217), in
source order; `fees?` and `disburse` are tested by their mandatory parts
(the optional `s` and the suffix cannot change a `test` result). -/
def updateSummaryRow (cs : CashSummary) (text : Str) : CashSummary :=
  let amt := firstNumMatch text
  let setQ : Option ℚ → Option ℚ := fun old =>
    match amt with
    | some m => some (parseMoney m)
    | none => old
  let cs := if gapWordTest ("beginning".data) ("cash".data) text then
      { cs with beginningBalance := setQ cs.beginningBalance } else cs
  let cs := if gapWordTest ("cash".data) ("in".data) text &&
      !gapWordTest ("cash".data) ("out".data) text then
      { cs with cashIn := setQ cs.cashIn } else cs
  let cs := if gapWordTest ("cash".data) ("out".data) text then
      { cs with cashOut := setQ cs.cashOut } else cs
  let cs := if gapWordTest ("management".data) ("fee".data) text then
      { cs with managementFees := setQ cs.managementFees } else cs
  let cs := if gapWordTest ("owner".data) ("disburse".data) text then
      { cs with ownerDisbursements := setQ cs.ownerDisbursements } else cs
  let cs := if gapWordTest ("ending".data) ("cash".data) text then
      { cs with endingBalance := setQ cs.endingBalance } else cs
  cs

/-- The look-ahead window of line 192: the up-to-9 rows after the
`property cash summary` row. -/
def updateSummaryWindow (cs : CashSummary) (window : List (List Item)) : CashSummary :=
  window.foldl (fun c row => updateSummaryRow c (rowToText row)) cs

/-!  ## Property page segmenter (lines 179-399)  -/

/-- The term `PropertyPageResult`. -/
structure PropResult where
  propertyAddress : Option Addr
  cashSummary : CashSummary
  transactions : List Tx
deriving DecidableEq

/-- The main row loop of `parsePropertyPage` (lines 185-392), carrying
`(inTransactionTable, cashSummary, transactions)`.  The summary window
only peeks ahead (the peeked rows are iterated again), matching the
source's indexed loop. -/
def ppGo : List (List Item) → Bool → CashSummary → List Tx → CashSummary × List Tx
  | [], _, cs, txs => (cs, txs)
  | r :: rest, inT, cs, txs =>
    let tl := lowerStr (rowToText r)
    if incl tl ("property cash summary".data) then
      ppGo rest inT (updateSummaryWindow cs (rest.take 9)) txs
    else if (incl tl ("payee".data) && incl tl ("type".data)) ||
        incl tl ("payee/payer".data) then
      ppGo rest true cs txs
    else if !inT then ppGo rest inT cs txs
    else
      match rowTransaction r with
      | some tx => ppGo rest inT cs (txs ++ [tx])
      | none => ppGo rest inT cs txs

/-- The term `parsePropertyPage` (lines 179-399). -/
def parsePropertyPage (rows : List (List Item)) : PropResult :=
  let st := ppGo rows false {} []
  { propertyAddress := extractPropertyAddress rows
    cashSummary := st.1
    transactions := st.2 }

/-!  ## Categorizer and aggregator (lines 404-521)  -/

/-- The ordered keyword-rule table of lines 407-430. -/
def catRules : List (List Str × Str) :=
  [(["rent income".data, "rent payment".data, "monthly rent".data], "rent".data),
   (["late fee".data, "late charge".data], "late-fee".data),
   (["security deposit".data, "deposit refund".data], "deposit".data),
   (["management fee".data, "management fees".data, "mgmt fee".data], "management-fee".data),
   (["owner distribution".data, "owner disbursement".data, "owner draw".data], "owner-distribution".data),
   (["plumb".data, "drain".data, "pipe".data, "toilet".data, "faucet".data, "water heater".data], "plumbing".data),
   (["electric".data, "wiring".data, "outlet".data, "breaker".data, "j and r electric".data], "electrical".data),
   (["hvac".data, "air condition".data, "furnace".data, "a/c".data, "heating".data], "hvac".data),
   (["appliance".data, "washer".data, "dryer".data, "dishwasher".data, "refriger".data, "stove".data, "oven".data, "grit appliance".data], "appliance".data),
   (["pest".data, "exterminator".data, "termite".data, "roach".data], "pest-control".data),
   (["clean".data, "janitorial".data, "maid".data], "cleaning".data),
   (["landscap".data, "lawn".data, "mow".data, "yard".data, "tree".data, "snow".data], "landscaping".data),
   (["insur".data], "insurance".data),
   (["tax".data, "property tax".data], "taxes".data),
   (["hoa".data, "association".data], "hoa".data),
   (["legal".data, "attorney".data, "evict".data], "legal".data),
   (["reliant".data, "centerpoint".data, "atmos".data, "utility".data, "water bill".data, "sewer".data, "trash".data], "utilities".data),
   (["lowe".data, "home depot".data, "menard".data, "ace hardware".data], "repair".data),
   (["repair".data, "fix".data, "replace".data, "maintenance".data, "service".data], "repair".data)]

/-- The term `categorizeTransaction` (lines 404-436): first matching keyword group
wins, else `other`. -/
def categorizeTransaction (tx : Tx) : Str :=
  let text := lowerStr (tx.payee ++ [' '] ++ tx.type ++ [' '] ++ tx.description)
  match catRules.find? (fun rule => rule.1.any (incl text)) with
  | some rule => rule.2
  | none => "other".data

/-- The term `CategorizedTransaction` (lines 496-506). -/
structure CatTx where
  date : Str
  payee : Str
  type : Str
  description : Str
  cashIn : ℚ
  cashOut : ℚ
  balance : ℚ
  propertyAddress : Str
  propertyFullAddress : Str
  category : Str
  isIncome : Bool
  isExpense : Bool
  isDistribution : Bool
  amount : ℚ
  flowType : Str
deriving DecidableEq

/-- The flattening step of lines 489-508 for a single transaction. -/
def catize (prop : PropResult) (tx : Tx) : CatTx :=
  let category := categorizeTransaction tx
  let isIncome := decide (tx.cashIn > 0) && decide (tx.cashOut = 0)
  let isExpense := decide (tx.cashOut > 0)
  let isDistribution := decide (category = "owner-distribution".data)
  { date := tx.date, payee := tx.payee, type := tx.type
    description := tx.description, cashIn := tx.cashIn, cashOut := tx.cashOut
    balance := tx.balance
    propertyAddress :=
      match prop.propertyAddress with
      | some a => a.shortAddress
      | none => []
    propertyFullAddress :=
      match prop.propertyAddress with
      | some a => a.fullAddress
      | none => []
    category := category
    isIncome := isIncome
    isExpense := isExpense
    isDistribution := isDistribution
    amount := if isIncome then tx.cashIn else tx.cashOut
    flowType :=
      if isDistribution then "distribution".data
      else if isIncome then "income".data
      else "expense".data }

/-- The document summary (lines 514-520). -/
structure DocSummary where
  totalProperties : Nat
  totalTransactions : Nat
  totalIncome : ℚ
  totalExpenses : ℚ
  totalDistributions : ℚ
deriving DecidableEq

/-- The term `ParseResult`. -/
structure ParseResult where
  period : Option StatementPeriod
  properties : List PropResult
  allTransactions : List CatTx
  summary : DocSummary
deriving DecidableEq

/-- The term `rows.map(rowToText).join(sep)`. -/
def joinWith (sep : Str) : List Str → Str
  | [] => []
  | [s] => s
  | s :: t => s ++ sep ++ joinWith sep t

/-- The concatenated full-document text of lines 455-463. -/
def fullTextOf (pages : List (List (List Item))) : Str :=
  (pages.map fun rows =>
    joinWith ['\n'] (rows.map rowToText) ++ "\n---PAGE---\n".data).flatten

/-- The per-page filter of lines 472-485: skip consolidated pages, keep a
result only when it has a transaction or an address. -/
def pageResult (rows : List (List Item)) : Option PropResult :=
  let pageText := lowerStr (joinWith [' '] (rows.map rowToText))
  if incl pageText ("consolidated summary".data) ||
      incl pageText ("consolidated owner".data) then none
  else
    let r := parsePropertyPage rows
    if !r.transactions.isEmpty || r.propertyAddress.isSome then some r else none

/-- The post-extraction core of `parseOwnerPacket` (lines 455-521),
entered at the per-page extracted rows (the `pdfjs` calls and the
document-open error handling of lines 443-452 stay outside the
embedding). -/
def parseOwnerPacketCore (pages : List (List (List Item))) : ParseResult :=
  let period := detectStatementPeriod (fullTextOf pages)
  let startPage := if pages.length > 1 then 1 else 0
  let properties := (pages.drop startPage).filterMap pageResult
  let allTransactions := properties.flatMap fun prop => prop.transactions.map (catize prop)
  { period := period
    properties := properties
    allTransactions := allTransactions
    summary :=
      { totalProperties := properties.length
        totalTransactions := allTransactions.length
        totalIncome :=
          (allTransactions.filter fun t => t.isIncome).foldl (fun s t => qadd s t.cashIn) 0
        totalExpenses :=
          (allTransactions.filter fun t => t.isExpense && !t.isDistribution).foldl
            (fun s t => qadd s t.cashOut) 0
        totalDistributions :=
          (allTransactions.filter fun t => t.isDistribution).foldl
            (fun s t => qadd s t.cashOut) 0 } }

/-!  ## Generic helper lemmas  -/

theorem takeWhile_app {p : Char → Bool} (a : Str) (c : Char) (r : Str)
    (ha : a.all p = true) (hc : p c = false) :
    (a ++ c :: r).takeWhile p = a ∧ (a ++ c :: r).dropWhile p = c :: r := by
  induction a with
  | nil => simp [List.takeWhile, List.dropWhile, hc]
  | cons x t ih =>
    simp only [List.all_cons, Bool.and_eq_true] at ha
    have := ih ha.2
    simp [List.takeWhile, List.dropWhile, ha.1, this.1, this.2]

theorem takeWhile_all {p : Char → Bool} (a : Str) (ha : a.all p = true) :
    a.takeWhile p = a ∧ a.dropWhile p = [] := by
  induction a with
  | nil => simp
  | cons x t ih =>
    simp only [List.all_cons, Bool.and_eq_true] at ha
    have := ih ha.2
    simp [List.takeWhile, List.dropWhile, ha.1, this.1, this.2]

theorem all_takeWhile {p : Char → Bool} (l : Str) : (l.takeWhile p).all p = true := by
  induction l with
  | nil => simp
  | cons x t ih =>
    by_cases h : p x
    · simp [List.takeWhile, h, ih]
    · simp [List.takeWhile, h]

theorem stInsert_perm (le : α → α → Bool) (x : α) (l : List α) :
    List.Perm (stInsert le x l) (x :: l) := by
  induction l with
  | nil => simp [stInsert]
  | cons y t ih =>
    unfold stInsert
    split
    · exact ((ih.cons y).trans (List.Perm.swap x y t)).symm.symm
    · exact List.Perm.refl _

theorem stableSort_perm (le : α → α → Bool) (l : List α) :
    List.Perm (stableSort le l) l := by
  suffices h : ∀ acc : List α,
      List.Perm (l.foldl (fun acc x => stInsert le x acc) acc) (acc ++ l) by
    simpa using h []
  induction l with
  | nil => intro acc; simp
  | cons x t ih =>
    intro acc
    simp only [List.foldl_cons]
    refine (ih (stInsert le x acc)).trans ?_
    have h1 : List.Perm (stInsert le x acc ++ t) ((x :: acc) ++ t) :=
      List.Perm.append (stInsert_perm le x acc) (List.Perm.refl t)
    refine h1.trans ?_
    simpa using
      (show List.Perm (acc ++ x :: t) (x :: (acc ++ t)) from List.perm_middle).symm

theorem perm_pair {a b : α} {l : List α} (h : List.Perm l [a, b]) :
    l = [a, b] ∨ l = [b, a] := by
  match l, h.length_eq with
  | [x, y], _ =>
    have hx : x ∈ [a, b] := h.mem_iff.1 (by simp)
    rcases List.mem_pair.1 hx with rfl | rfl
    · have := h.cons_inv (a := x)
      have := List.perm_singleton.1 this
      left; rw [this]
    · have h2 : List.Perm (x :: [y]) (x :: [a]) := h.trans (List.Perm.swap x a [])
      have := List.perm_singleton.1 (h2.cons_inv)
      right; rw [this]

/-!  ## Claim C7: `parseDate`  -/

/-- Declarative reading of a digit run with bounded length. -/
def DigitRun (s : Str) (lo hi : Nat) : Prop :=
  s.all Char.isDigit = true ∧ lo ≤ s.length ∧ s.length ≤ hi

/-- Declarative reading of the pattern the code accepts:
`\d{1,2}`, a `/` or `-` separator, `\d{1,2}`, a `/` or `-` separator,
`\d{2,4}`, spanning the whole string. -/
def MdySpec (t : Str) : Prop :=
  ∃ a b y c1 c2, t = a ++ c1 :: (b ++ c2 :: y) ∧
    DigitRun a 1 2 ∧ (c1 = '/' ∨ c1 = '-') ∧
    DigitRun b 1 2 ∧ (c2 = '/' ∨ c2 = '-') ∧ DigitRun y 2 4

theorem not_mdySpec_nil : ¬ MdySpec [] := by
  rintro ⟨a, b, y, c1, c2, h, -⟩
  exact absurd h.symm (by simp)

theorem matchMDY_isSome_iff (t : Str) : (matchMDY t).isSome = true ↔ MdySpec t := by
  constructor
  · intro h
    simp only [matchMDY] at h
    split at h
    case isFalse => simp at h
    case isTrue h1 =>
      split at h
      case h_2 => simp at h
      case h_1 c1 r2 heq1 =>
        split at h
        case isFalse => simp at h
        case isTrue hc1 =>
          split at h
          case isFalse => simp at h
          case isTrue h2 =>
            split at h
            case h_2 => simp at h
            case h_1 c2 r4 heq2 =>
              split at h
              case isFalse => simp at h
              case isTrue hc2 =>
                split at h
                case isFalse => simp at h
                case isTrue h3 =>
                  obtain ⟨h3a, h3b, h3c⟩ := h3
                  refine ⟨t.takeWhile Char.isDigit, r2.takeWhile Char.isDigit,
                    r4.takeWhile Char.isDigit, c1, c2, ?_, ?_, hc1, ?_, hc2, ?_⟩
                  · have e3 : List.takeWhile Char.isDigit r4 = r4 := by
                      have e := List.takeWhile_append_dropWhile (p := Char.isDigit) (l := r4)
                      rw [List.isEmpty_iff] at h3c
                      rw [h3c, List.append_nil] at e
                      exact e
                    rw [e3, ← heq2, List.takeWhile_append_dropWhile, ← heq1,
                      List.takeWhile_append_dropWhile]
                  · exact ⟨all_takeWhile t, h1.1, h1.2⟩
                  · exact ⟨all_takeWhile r2, h2.1, h2.2⟩
                  · exact ⟨all_takeWhile r4, h3a, h3b⟩
  · rintro ⟨a, b, y, c1, c2, rfl, ⟨ha, ha1, ha2⟩, hc1, ⟨hb, hb1, hb2⟩, hc2, ⟨hy, hy1, hy2⟩⟩
    have hc1d : Char.isDigit c1 = false := by rcases hc1 with rfl | rfl <;> decide
    have hc2d : Char.isDigit c2 = false := by rcases hc2 with rfl | rfl <;> decide
    have e1 := takeWhile_app (p := Char.isDigit) a c1 (b ++ c2 :: y) ha hc1d
    have e2 := takeWhile_app (p := Char.isDigit) b c2 y hb hc2d
    have e3 := takeWhile_all (p := Char.isDigit) y hy
    simp only [matchMDY, e1.1, e1.2, e2.1, e2.2, e3.1, e3.2]
    simp [ha1, ha2, hb1, hb2, hy1, hy2, hc1, hc2]

theorem isoTest_ne_nil {t : Str} (h : isoTest t = true) : t ≠ [] := by
  cases t with
  | nil => simp [isoTest] at h
  | cons c r => simp

/-- Modelled from the spec's words (claim C7): the accepted patterns are
`MM/DD/YYYY` and `M/D/YY` — slash separators, one- or two-digit month and
day, a year of exactly four or exactly two digits — and ISO `YYYY-MM-DD`. -/
def specC7DatePat (s : Str) : Bool :=
  (let d1 := s.takeWhile Char.isDigit
   let r1 := s.dropWhile Char.isDigit
   (1 ≤ d1.length && d1.length ≤ 2) &&
     match r1 with
     | '/' :: r2 =>
       let d2 := r2.takeWhile Char.isDigit
       let r3 := r2.dropWhile Char.isDigit
       (1 ≤ d2.length && d2.length ≤ 2) &&
         match r3 with
         | '/' :: r4 =>
           let d3 := r4.takeWhile Char.isDigit
           let r5 := r4.dropWhile Char.isDigit
           (d3.length = 2 || d3.length = 4) && r5.isEmpty
         | _ => false
     | _ => false) ||
  isoTest s

/-- Claim C7 as stated is false on the code in two ways: `parseDate`
sends `'1/5/26'` to `'2026-01-05'` (January 5th), not `'2026-01-15'`;
and `'01-15-2026'` matches none of the claim's accepted patterns
(slash-separated or ISO) yet `parseDate` returns `'2026-01-15'`, not the
empty string. -/
theorem c7_counterexample :
    parseDate ("1/5/26".data) = "2026-01-05".data ∧
    ("2026-01-05".data : Str) ≠ "2026-01-15".data ∧
    parseDate ("01-15-2026".data) = "2026-01-15".data ∧
    specC7DatePat ("01-15-2026".data) = false :=
  ⟨by decide, by decide, by decide, by decide⟩

/-- Claim C7, amended: `parseDate` maps `'01/15/2026'` to `'2026-01-15'`,
`'1/5/26'` to `'2026-01-05'` (two-digit years read as 20xx) and
`'2026-01-15'` to itself; `parseDate('garbage')` is `''`; and for every
input string the result is the empty-string sentinel (never an error)
exactly when the trimmed input matches neither the generalized pattern
of one-or-two digits, a slash-or-dash separator, one-or-two digits, a
slash-or-dash separator, and two-to-four digits (mixed separators
allowed), nor ISO `YYYY-MM-DD`. -/
theorem c7_parseDate :
    parseDate ("01/15/2026".data) = "2026-01-15".data ∧
    parseDate ("1/5/26".data) = "2026-01-05".data ∧
    parseDate ("2026-01-15".data) = "2026-01-15".data ∧
    parseDate ("garbage".data) = [] ∧
    ∀ s : Str, parseDate s = [] ↔
      (¬ MdySpec (trimStr s) ∧ isoTest (trimStr s) = false) := by
  refine ⟨by decide, by decide, by decide, by decide, ?_⟩
  intro s
  by_cases hs : s.isEmpty
  · rw [List.isEmpty_iff] at hs
    subst hs
    simp only [parseDate, List.isEmpty_nil, if_true]
    constructor
    · intro _
      exact ⟨not_mdySpec_nil, by decide⟩
    · intro _
      trivial
  · simp only [parseDate, hs, Bool.false_eq_true, if_false]
    rcases hm : matchMDY (trimStr s) with - | ⟨m, d, y⟩
    · have hnm : ¬ MdySpec (trimStr s) := by
        rw [← matchMDY_isSome_iff, hm]
        simp
      rcases hiso : isoTest (trimStr s) with - | -
      · simp [hm, hiso, hnm]
      · simp only [hm, hiso, if_true]
        constructor
        · intro h
          exact absurd h (isoTest_ne_nil hiso)
        · rintro ⟨-, h⟩
          simp at h
    · have hmy : MdySpec (trimStr s) := by
        rw [← matchMDY_isSome_iff, hm]
        rfl
      simp only [hm]
      constructor
      · intro h
        simp at h
      · rintro ⟨hnm, -⟩
        exact absurd hmy hnm

/-!  ## Claim C1: `detectStatementPeriod`  -/

/-- A word is a (full or abbreviated, case-insensitive) English month
name exactly when it is a key of the fixed lookup table. -/
def isMonthName (w : Str) : Bool :=
  (monthsTable.find? fun kv => kv.1 = lowerStr w).isSome

/-- Modelled from the spec's words (claim C1): the text contains, at some
position, a match of the period pattern whose two month words are
recognized English month names. -/
def specMonthPeriod (s : Str) : Bool :=
  searchBool
    (fun t =>
      match periodAt t with
      | some c => isMonthName c.w1 && isMonthName c.w2
      | none => false)
    s

/-- Claim C1 as stated is false on the code: the month slots of the
pattern are arbitrary 3-to-9-character words, so a text with no English
month names still produces a non-null `StatementPeriod` (both unknown
months silently defaulting to `'01'`), where the claim requires `null`. -/
theorem c1_counterexample :
    (detectStatementPeriod ("Foo 1, 2026 - Bar 2, 2026".data)).isSome = true ∧
    specMonthPeriod ("Foo 1, 2026 - Bar 2, 2026".data) = false ∧
    (detectStatementPeriod ("Foo 1, 2026 - Bar 2, 2026".data)).map
      (fun p => p.startDate) = some ("2026-01-01".data) :=
  ⟨by decide, by decide, by decide⟩

theorem periodSearch_isSome_iff (s : Str) :
    (periodSearch s).isSome = true ↔ ∃ i : Nat, (periodAt (s.drop i)).isSome = true := by
  induction s with
  | nil =>
    constructor
    · intro h
      simp [periodSearch] at h
    · rintro ⟨i, hi⟩
      rw [List.drop_nil] at hi
      exact absurd hi (by decide)
  | cons c t ih =>
    constructor
    · intro h
      simp only [periodSearch] at h
      split at h
      case h_1 r heq => exact ⟨0, by simp [heq]⟩
      case h_2 heq =>
        obtain ⟨i, hi⟩ := ih.1 h
        exact ⟨i + 1, by simpa using hi⟩
    · rintro ⟨i, hi⟩
      simp only [periodSearch]
      split
      case h_1 r heq => simp
      case h_2 heq =>
        refine ih.2 ?_
        match i, hi with
        | 0, hi => rw [List.drop_zero] at hi; rw [heq] at hi; exact absurd hi (by decide)
        | i + 1, hi => exact ⟨i, by simpa using hi⟩

/-- Claim C1, amended: `detectStatementPeriod` returns a non-null
`StatementPeriod` exactly when the text contains (at some position) a
match of the `Word D, YYYY - Word D, YYYY` pattern (en dash or hyphen
separator) whose two word slots are any 3-to-9 word characters, not
necessarily month names; the start and end months are obtained from the
fixed month-name lookup table when the word is a recognized month name
and default to `'01'` otherwise; only the first match in the text is
used. -/
theorem c1_detectStatementPeriod :
    (∀ s : Str, (detectStatementPeriod s).isSome = true ↔
      ∃ i : Nat, (periodAt (s.drop i)).isSome = true) ∧
    (detectStatementPeriod ("Jan 01, 2026 - Feb 28, 2026".data)).map
      (fun p => p.startDate) = some ("2026-01-01".data) ∧
    (detectStatementPeriod ("Jan 01, 2026 - Feb 28, 2026".data)).map
      (fun p => p.endDate) = some ("2026-02-28".data) ∧
    (detectStatementPeriod ("Qux 7, 2031 - Zot 9, 2032".data)).map
      (fun p => p.startDate) = some ("2031-01-07".data) ∧
    (detectStatementPeriod
      ("Mar 1, 2025 - Apr 2, 2025 and Jul 3, 2026 - Aug 4, 2026".data)).map
      (fun p => p.startDate) = some ("2025-03-01".data) := by
  refine ⟨?_, by decide, by decide, by decide, by decide⟩
  intro s
  rw [← periodSearch_isSome_iff]
  unfold detectStatementPeriod
  cases h : periodSearch s <;> simp [h]

/-!  ## Inversion of the transaction-row classifier  -/

theorem rowTx_some {row : List Item} {tx : Tx} (h : rowTransaction row = some tx) :
    ∃ f r, row = f :: r ∧
      (rowToText row).isEmpty = false ∧
      incl (lowerStr (rowToText row)) ("page ".data) = false ∧
      incl (lowerStr (rowToText row)) ("total".data) = false ∧
      3 ≤ row.length ∧
      ((parseDate f.text).isEmpty = false ∨ rawDateTest f.text = true) ∧
      (amountsOf row).isEmpty = false ∧
      typeCheckFlag row = false ∧
      tx = { date := parseDate f.text, payee := detectPayee row,
             type := detectType row, description := descrOf row,
             cashIn := jsAbs (cashTriple row).1,
             cashOut := jsAbs (cashTriple row).2.1,
             balance := (cashTriple row).2.2 } := by
  cases row with
  | nil => simp [rowTransaction] at h
  | cons f r =>
    simp only [rowTransaction] at h
    split at h
    case isTrue => exact absurd h (by simp)
    case isFalse h1 =>
      split at h
      case isTrue => exact absurd h (by simp)
      case isFalse h2 =>
        split at h
        case isTrue => exact absurd h (by simp)
        case isFalse h3 =>
          split at h
          case isTrue => exact absurd h (by simp)
          case isFalse h4 =>
            split at h
            case isTrue => exact absurd h (by simp)
            case isFalse h5 =>
              simp only [Bool.or_eq_true, not_or, Bool.not_eq_true] at h1
              simp only [Bool.and_eq_true, Bool.not_eq_true', not_and_or,
                Bool.not_eq_true, Bool.not_eq_false] at h3
              refine ⟨f, r, rfl, h1.1.1, h1.1.2, h1.2, Nat.not_lt.1 h2,
                ?_, ?_, ?_, ?_⟩
              · rcases h3 with h3 | h3
                · exact Or.inl h3
                · exact Or.inr h3
              · simpa using h4
              · simpa using h5
              · exact (Option.some.inj h).symm

/-!  ## Claim C2: balance-row echoes  -/

/-- Claim C2, amended: a row inside a detected transaction table produces
no transaction when the balance-row guard fires, i.e. when the detected
type, compared *case-sensitively* as captured, contains 'beginning cash
balance' or 'ending cash balance', or — only when no type was detected —
the lowercased full row text contains one of the phrases.  (The original
claim's case-insensitive test of the type, and its test of the full text
alongside a detected type, do not hold: see the counterexample.) -/
theorem c2_balanceRowSkip (row : List Item) (h : typeCheckFlag row = true) :
    rowTransaction row = none := by
  cases hr : rowTransaction row with
  | none => rfl
  | some tx =>
    obtain ⟨f, r, -, -, -, -, -, -, -, hflag, -⟩ := rowTx_some hr
    rw [h] at hflag
    exact absurd hflag (by simp)

def c2wRow : List Item :=
  [⟨"01/15/2026".data, 10, 90, 0⟩,
   ⟨"ending cash balance".data, 100, 90, 0⟩,
   ⟨"100.00".data, 300, 90, 0⟩]

theorem c2_balanceRowSkip_witness :
    typeCheckFlag c2wRow = true ∧ rowTransaction c2wRow = none :=
  ⟨by decide, c2_balanceRowSkip c2wRow (by decide)⟩

def c2hdr : List Item := [⟨"Payee/Payer".data, 10, 100, 0⟩]

def c2row : List Item :=
  [⟨"01/15/2026".data, 10, 90, 0⟩,
   ⟨"Beginning Cash Balance".data, 100, 90, 0⟩,
   ⟨"100.00".data, 300, 90, 0⟩]

/-- Claim C2 as stated is false on the code: for this row the detected
type is the original-case fragment text `'Beginning Cash Balance'`, which
contains `'beginning cash balance'` case-insensitively, yet the guard of
lines 372-375 tests the captured type with a *case-sensitive* `includes`,
so `parsePropertyPage` does emit a transaction for the row. -/
theorem c2_counterexample :
    incl (lowerStr (detectType c2row)) ("beginning cash balance".data) = true ∧
    (rowTransaction c2row).isSome = true ∧
    (parsePropertyPage [c2hdr, c2row]).transactions.length = 1 :=
  ⟨by decide, by decide, by decide⟩

/-!  ## Membership in the page loop  -/

theorem ppGo_mem (l : List (List Item)) :
    ∀ (b : Bool) (cs : CashSummary) (acc : List Tx) (tx : Tx),
      tx ∈ (ppGo l b cs acc).2 →
      tx ∈ acc ∨ ∃ r, r ∈ l ∧ rowTransaction r = some tx := by
  induction l with
  | nil =>
    intro b cs acc tx h
    simp only [ppGo] at h
    exact Or.inl h
  | cons row rest ih =>
    intro b cs acc tx h
    simp only [ppGo] at h
    split at h
    · rcases ih _ _ _ _ h with h' | ⟨r, hr, hrt⟩
      · exact Or.inl h'
      · exact Or.inr ⟨r, List.mem_cons_of_mem _ hr, hrt⟩
    · split at h
      · rcases ih _ _ _ _ h with h' | ⟨r, hr, hrt⟩
        · exact Or.inl h'
        · exact Or.inr ⟨r, List.mem_cons_of_mem _ hr, hrt⟩
      · split at h
        · rcases ih _ _ _ _ h with h' | ⟨r, hr, hrt⟩
          · exact Or.inl h'
          · exact Or.inr ⟨r, List.mem_cons_of_mem _ hr, hrt⟩
        · split at h
          case h_1 tx' heq =>
            rcases ih _ _ _ _ h with h' | ⟨r, hr, hrt⟩
            · rcases List.mem_append.1 h' with h'' | h''
              · exact Or.inl h''
              · have he : tx = tx' := by simpa using h''
                exact Or.inr ⟨row, List.mem_cons_self _ _, he ▸ heq⟩
            · exact Or.inr ⟨r, List.mem_cons_of_mem _ hr, hrt⟩
          case h_2 heq =>
            rcases ih _ _ _ _ h with h' | ⟨r, hr, hrt⟩
            · exact Or.inl h'
            · exact Or.inr ⟨r, List.mem_cons_of_mem _ hr, hrt⟩

theorem parsePropertyPage_mem {rows : List (List Item)} {tx : Tx}
    (h : tx ∈ (parsePropertyPage rows).transactions) :
    ∃ r, r ∈ rows ∧ rowTransaction r = some tx := by
  have h' : tx ∈ (ppGo rows false {} []).2 := h
  rcases ppGo_mem rows false {} [] tx h' with h'' | hout
  · simp at h''
  · exact hout

/-!  ## Claim C9: cashIn/cashOut are non-negative magnitudes  -/

/-- Claim C9: every transaction emitted by the property-page parser has
non-negative `cashIn` and `cashOut` (both stored through `Math.abs`),
whatever the sign encoding of the source money strings. -/
theorem c9_absAmounts (rows : List (List Item)) (tx : Tx)
    (h : tx ∈ (parsePropertyPage rows).transactions) :
    0 ≤ tx.cashIn ∧ 0 ≤ tx.cashOut := by
  obtain ⟨r, -, hrt⟩ := parsePropertyPage_mem h
  obtain ⟨f, rr, -, -, -, -, -, -, -, -, htx⟩ := rowTx_some hrt
  rw [htx]
  exact ⟨jsAbs_nonneg _, jsAbs_nonneg _⟩

def c9hdr : List Item := [⟨"Payee/Payer".data, 10, 100, 0⟩]

def c9row : List Item :=
  [⟨"01/15/2026".data, 10, 90, 0⟩,
   ⟨"Acme Plumbing".data, 60, 90, 0⟩,
   ⟨"(50.00)".data, 300, 90, 0⟩]

def c9tx : Tx :=
  { date := "2026-01-15".data, payee := "Acme Plumbing".data, type := []
    description := "Acme Plumbing".data, cashIn := 0, cashOut := 50, balance := 0 }

theorem c9_absAmounts_witness : 0 ≤ c9tx.cashIn ∧ 0 ≤ c9tx.cashOut :=
  c9_absAmounts [c9hdr, c9row] c9tx (by decide)

/-!  ## Claim C6: the admission gate  -/

/-- Claim C6: a transaction is emitted for a row only when the row has at
least 3 fragments, its text contains neither 'page ' nor 'total'
(case-insensitively), its first fragment parses as a date or matches the
raw date pattern, and at least one fragment matches the money-amount
pattern (in particular a row with no money fragment is excluded even
after passing the date gate). -/
theorem c6_admissionGate (rows : List (List Item)) (tx : Tx)
    (h : tx ∈ (parsePropertyPage rows).transactions) :
    ∃ row, row ∈ rows ∧ rowTransaction row = some tx ∧
      3 ≤ row.length ∧
      incl (lowerStr (rowToText row)) ("page ".data) = false ∧
      incl (lowerStr (rowToText row)) ("total".data) = false ∧
      (∃ f r, row = f :: r ∧
        ((parseDate f.text).isEmpty = false ∨ rawDateTest f.text = true)) ∧
      ∃ it, it ∈ row ∧ isAmountItem it = true := by
  obtain ⟨row, hrow, hrt⟩ := parsePropertyPage_mem h
  obtain ⟨f, r, hfr, -, hpage, htotal, hlen, hdate, hamt, -, -⟩ := rowTx_some hrt
  refine ⟨row, hrow, hrt, hlen, hpage, htotal, ⟨f, r, hfr, hdate⟩, ?_⟩
  have hne : row.filter isAmountItem ≠ [] := by
    intro he
    rw [amountsOf, he] at hamt
    simp at hamt
  obtain ⟨it, hit⟩ := List.exists_mem_of_ne_nil _ hne
  exact ⟨it, (List.mem_filter.1 hit).1, (List.mem_filter.1 hit).2⟩

def c6hdr : List Item := [⟨"Payee/Payer".data, 11, 100, 0⟩]

def c6row : List Item :=
  [⟨"01/15/2026".data, 10, 90, 0⟩,
   ⟨"John Doe".data, 60, 90, 0⟩,
   ⟨"Rent Income".data, 150, 90, 0⟩,
   ⟨"950.00".data, 250, 90, 0⟩,
   ⟨"1,500.00".data, 330, 90, 0⟩]

def c6tx : Tx :=
  { date := "2026-01-15".data, payee := "John Doe".data
    type := "Rent Income".data, description := "John Doe".data
    cashIn := 950, cashOut := 0, balance := 1500 }

theorem c6_admissionGate_witness :
    ∃ row, row ∈ [c6hdr, c6row] ∧ rowTransaction row = some c6tx ∧
      3 ≤ row.length ∧
      incl (lowerStr (rowToText row)) ("page ".data) = false ∧
      incl (lowerStr (rowToText row)) ("total".data) = false ∧
      (∃ f r, row = f :: r ∧
        ((parseDate f.text).isEmpty = false ∨ rawDateTest f.text = true)) ∧
      ∃ it, it ∈ row ∧ isAmountItem it = true :=
  c6_admissionGate [c6hdr, c6row] c6tx (by decide)

/-!  ## Claim C10: the balance field keeps its sign  -/

theorem jsAbs_zero : jsAbs 0 = 0 := by decide

theorem amountsOf_snd {row : List Item} {p : Item × ℚ} (hp : p ∈ amountsOf row) :
    p.2 = parseMoney p.1.text := by
  simp only [amountsOf, List.mem_map] at hp
  obtain ⟨it, -, hpe⟩ := hp
  rw [← hpe]

theorem sortedAmounts_mem {row : List Item} {p : Item × ℚ}
    (hp : p ∈ sortedAmountsOf row) : p ∈ amountsOf row :=
  (stableSort_perm _ _).mem_iff.1 hp

/-- Claim C10: the `balance` field is stored without absolute-value
normalization — with three or more detected amounts it is the signed
`parseMoney` value of the third-leftmost amount, with exactly two it is
the signed value of the rightmost, and with one it is `0`. -/
theorem c10_signedBalance (row : List Item) (tx : Tx)
    (h : rowTransaction row = some tx) :
    (∃ a0 a1 a2 rest, sortedAmountsOf row = a0 :: a1 :: a2 :: rest ∧
       tx.balance = a2.2 ∧ a2.2 = parseMoney a2.1.text) ∨
    (∃ a0 a1, sortedAmountsOf row = [a0, a1] ∧
       tx.balance = a1.2 ∧ a1.2 = parseMoney a1.1.text) ∨
    (∃ a0, sortedAmountsOf row = [a0] ∧ tx.balance = 0) := by
  obtain ⟨f, r, -, -, -, -, -, -, hamt, -, htx⟩ := rowTx_some h
  have hne : sortedAmountsOf row ≠ [] := by
    intro he
    have hlen := (stableSort_perm (fun a b => decide (a.1.x ≤ b.1.x))
      (amountsOf row)).length_eq
    rw [show stableSort (fun a b => decide (a.1.x ≤ b.1.x)) (amountsOf row) =
      sortedAmountsOf row from rfl, he] at hlen
    rw [List.isEmpty_eq_false] at hamt
    exact hamt (List.length_eq_zero.1 hlen.symm)
  rcases hs : sortedAmountsOf row with - | ⟨a0, - | ⟨a1, - | ⟨a2, rest⟩⟩⟩
  · exact absurd hs hne
  · refine Or.inr (Or.inr ⟨a0, rfl, ?_⟩)
    rw [htx]
    simp only [cashTriple, hs]
    split <;> rfl
  · refine Or.inr (Or.inl ⟨a0, a1, rfl, ?_, ?_⟩)
    · rw [htx]
      simp only [cashTriple, hs]
      split
      · rfl
      · split <;> rfl
    · exact amountsOf_snd (sortedAmounts_mem (by rw [hs]; simp))
  · refine Or.inl ⟨a0, a1, a2, rest, rfl, ?_, ?_⟩
    · rw [htx]
      simp only [cashTriple, hs]
    · exact amountsOf_snd (sortedAmounts_mem (by rw [hs]; simp))

def c10row : List Item :=
  [⟨"01/15/2026".data, 10, 90, 0⟩,
   ⟨"Acme".data, 60, 90, 0⟩,
   ⟨"100.00".data, 200, 90, 0⟩,
   ⟨"50.00".data, 260, 90, 0⟩,
   ⟨"(1,234.56)".data, 330, 90, 0⟩]

def c10tx : Tx :=
  { date := "2026-01-15".data, payee := "Acme".data, type := []
    description := "Acme".data, cashIn := 100, cashOut := 50
    balance := mkRat (-123456) 100 }

theorem c10_signedBalance_witness :
    ((∃ a0 a1 a2 rest, sortedAmountsOf c10row = a0 :: a1 :: a2 :: rest ∧
        c10tx.balance = a2.2 ∧ a2.2 = parseMoney a2.1.text) ∨
     (∃ a0 a1, sortedAmountsOf c10row = [a0, a1] ∧
        c10tx.balance = a1.2 ∧ a1.2 = parseMoney a1.1.text) ∨
     (∃ a0, sortedAmountsOf c10row = [a0] ∧ c10tx.balance = 0)) ∧
    c10tx.balance < 0 ∧ rowTransaction c10row = some c10tx :=
  ⟨c10_signedBalance c10row c10tx (by decide), by decide, by decide⟩

/-!  ## Claim C4: routing of the two-amount case  -/

/-- Claim C4: with exactly two detected amounts (sorted ascending by x),
the rightmost is always the balance; the leftmost goes to `cashIn` when
the detected type signals income (rent, income, deposit, late fee,
credit, prepaid — substring, case-insensitive), otherwise to `cashIn`
when the x-gap exceeds 100 units and the type contains none of
bill/management/owner, and to `cashOut` in all remaining cases. -/
theorem c4_twoAmountRouting (row : List Item) (tx : Tx) (a0 a1 : Item × ℚ)
    (h : rowTransaction row = some tx) (hs : sortedAmountsOf row = [a0, a1]) :
    tx.balance = a1.2 ∧
    (isIncomeTypeOf row = true → tx.cashIn = jsAbs a0.2 ∧ tx.cashOut = 0) ∧
    (isIncomeTypeOf row = false → gapRouteOk row a0 a1 = true →
      tx.cashIn = jsAbs a0.2 ∧ tx.cashOut = 0) ∧
    (isIncomeTypeOf row = false → gapRouteOk row a0 a1 = false →
      tx.cashOut = jsAbs a0.2 ∧ tx.cashIn = 0) := by
  obtain ⟨f, r, -, -, -, -, -, -, -, -, htx⟩ := rowTx_some h
  rw [htx]
  refine ⟨?_, ?_, ?_, ?_⟩
  · simp only [cashTriple, hs]
    split
    · rfl
    · split <;> rfl
  · intro h1
    simp [cashTriple, hs, h1, jsAbs_zero]
  · intro h1 h2
    simp [cashTriple, hs, h1, h2, jsAbs_zero]
  · intro h1 h2
    simp [cashTriple, hs, h1, h2, jsAbs_zero]

def c4row : List Item :=
  [⟨"02/01/2026".data, 10, 80, 0⟩,
   ⟨"Jane Roe".data, 60, 80, 0⟩,
   ⟨"Rent Income".data, 150, 80, 0⟩,
   ⟨"800.00".data, 250, 80, 0⟩,
   ⟨"2,000.00".data, 340, 80, 0⟩]

def c4tx : Tx :=
  { date := "2026-02-01".data, payee := "Jane Roe".data
    type := "Rent Income".data, description := "Jane Roe".data
    cashIn := 800, cashOut := 0, balance := 2000 }

def c4a0 : Item × ℚ := (⟨"800.00".data, 250, 80, 0⟩, 800)

def c4a1 : Item × ℚ := (⟨"2,000.00".data, 340, 80, 0⟩, 2000)

theorem c4_twoAmountRouting_witness :
    c4tx.balance = c4a1.2 ∧
    (isIncomeTypeOf c4row = true → c4tx.cashIn = jsAbs c4a0.2 ∧ c4tx.cashOut = 0) ∧
    (isIncomeTypeOf c4row = false → gapRouteOk c4row c4a0 c4a1 = true →
      c4tx.cashIn = jsAbs c4a0.2 ∧ c4tx.cashOut = 0) ∧
    (isIncomeTypeOf c4row = false → gapRouteOk c4row c4a0 c4a1 = false →
      c4tx.cashOut = jsAbs c4a0.2 ∧ c4tx.cashIn = 0) :=
  c4_twoAmountRouting c4row c4tx c4a0 c4a1 (by decide) (by decide)

/-!  ## Claims C3 and C8: categorizer and aggregator  -/

theorem catTx_shape {pages : List (List (List Item))} {t : CatTx}
    (h : t ∈ (parseOwnerPacketCore pages).allTransactions) :
    ∃ prop tx, t = catize prop tx := by
  simp only [parseOwnerPacketCore, List.mem_flatMap, List.mem_map] at h
  obtain ⟨prop, -, tx, -, htx⟩ := h
  exact ⟨prop, tx, htx.symm⟩

theorem catize_distribution (prop : PropResult) (tx : Tx) :
    ((catize prop tx).isDistribution = true ↔
      (catize prop tx).category = "owner-distribution".data) ∧
    (catize prop tx).flowType =
      (if (catize prop tx).isDistribution = true then "distribution".data
       else if (catize prop tx).isIncome = true then "income".data
       else "expense".data) := by
  constructor
  · simp [catize]
  · simp only [catize]

/-- Claim C3, amended: a categorized transaction is flagged
`isDistribution` exactly when its category is the owner-distribution tag,
and a transaction can be flagged `isExpense` and `isDistribution`
simultaneously (see the witness); however, contrary to the claim,
`flowType` *does* take a separate third value: it is `'distribution'`
whenever `isDistribution` holds, overriding `'income'`/`'expense'`. -/
theorem c3_distributionFlag (pages : List (List (List Item))) (t : CatTx)
    (h : t ∈ (parseOwnerPacketCore pages).allTransactions) :
    (t.isDistribution = true ↔ t.category = "owner-distribution".data) ∧
    t.flowType =
      (if t.isDistribution = true then "distribution".data
       else if t.isIncome = true then "income".data
       else "expense".data) := by
  obtain ⟨prop, tx, rfl⟩ := catTx_shape h
  exact catize_distribution prop tx

def c3hdr : List Item := [⟨"Payee/Payer".data, 10, 100, 0⟩]

def c3row : List Item :=
  [⟨"01/15/2026".data, 10, 90, 0⟩,
   ⟨"John".data, 60, 90, 0⟩,
   ⟨"Owner Distribution".data, 120, 90, 0⟩,
   ⟨"100.00".data, 300, 90, 0⟩]

def c3t : CatTx :=
  { date := "2026-01-15".data, payee := "John".data
    type := "Owner Distribution".data, description := "John".data
    cashIn := 0, cashOut := 100, balance := 0
    propertyAddress := [], propertyFullAddress := []
    category := "owner-distribution".data
    isIncome := false, isExpense := true, isDistribution := true
    amount := 100, flowType := "distribution".data }

theorem c3_distributionFlag_witness :
    ((c3t.isDistribution = true ↔ c3t.category = "owner-distribution".data) ∧
      c3t.flowType =
        (if c3t.isDistribution = true then "distribution".data
         else if c3t.isIncome = true then "income".data
         else "expense".data)) ∧
    c3t.isExpense = true ∧ c3t.isDistribution = true :=
  ⟨c3_distributionFlag [[c3hdr, c3row]] c3t (by decide), by decide, by decide⟩

/-- Claim C3 as stated is false on the code: an owner-distribution
transaction is emitted with `flowType = 'distribution'` — line 505 does
give `flowType` a separate third value, rather than carrying
distribution-ness only through the `isDistribution` flag. -/
theorem c3_counterexample :
    ((parseOwnerPacketCore [[c3hdr, c3row]]).allTransactions.map
      fun t => t.flowType) = ["distribution".data] ∧
    ((parseOwnerPacketCore [[c3hdr, c3row]]).allTransactions.map
      fun t => (t.isExpense, t.isDistribution)) = [(true, true)] :=
  ⟨by decide, by decide⟩

theorem foldl_qadd (f : CatTx → ℚ) (l : List CatTx) :
    ∀ init : ℚ, l.foldl (fun s t => qadd s (f t)) init = init + (l.map f).sum := by
  induction l with
  | nil => intro init; simp
  | cons x xs ih =>
    intro init
    simp only [List.foldl_cons, List.map_cons, List.sum_cons]
    rw [ih, qadd_eq]
    ring

theorem catize_income_expense (prop : PropResult) (tx : Tx) :
    ((catize prop tx).isIncome = true ↔
      (0 < (catize prop tx).cashIn ∧ (catize prop tx).cashOut = 0)) ∧
    ((catize prop tx).isExpense = true ↔ 0 < (catize prop tx).cashOut) := by
  constructor
  · simp [catize]
  · simp [catize]

/-- Claim C8: a categorized transaction is income exactly when
`cashIn > 0` and `cashOut = 0`, expense exactly when `cashOut > 0`; the
summary's `totalIncome` sums `cashIn` over income transactions,
`totalExpenses` sums `cashOut` over expense transactions that are not
distributions, and `totalDistributions` sums `cashOut` over distribution
transactions. -/
theorem c8_aggregation (pages : List (List (List Item))) :
    (∀ t ∈ (parseOwnerPacketCore pages).allTransactions,
      (t.isIncome = true ↔ (0 < t.cashIn ∧ t.cashOut = 0)) ∧
      (t.isExpense = true ↔ 0 < t.cashOut)) ∧
    (parseOwnerPacketCore pages).summary.totalIncome =
      (((parseOwnerPacketCore pages).allTransactions.filter
        fun t => t.isIncome).map fun t => t.cashIn).sum ∧
    (parseOwnerPacketCore pages).summary.totalExpenses =
      (((parseOwnerPacketCore pages).allTransactions.filter
        fun t => t.isExpense && !t.isDistribution).map fun t => t.cashOut).sum ∧
    (parseOwnerPacketCore pages).summary.totalDistributions =
      (((parseOwnerPacketCore pages).allTransactions.filter
        fun t => t.isDistribution).map fun t => t.cashOut).sum := by
  refine ⟨?_, ?_, ?_, ?_⟩
  · intro t ht
    obtain ⟨prop, tx, rfl⟩ := catTx_shape ht
    exact catize_income_expense prop tx
  · simp only [parseOwnerPacketCore]
    rw [foldl_qadd, zero_add]
  · simp only [parseOwnerPacketCore]
    rw [foldl_qadd, zero_add]
  · simp only [parseOwnerPacketCore]
    rw [foldl_qadd, zero_add]

def c8hdr : List Item := [⟨"Payee/Payer".data, 10, 100, 0⟩]

def c8row : List Item :=
  [⟨"01/15/2026".data, 10, 90, 0⟩,
   ⟨"John Doe".data, 60, 90, 0⟩,
   ⟨"Rent Income".data, 150, 90, 0⟩,
   ⟨"950.00".data, 250, 90, 0⟩,
   ⟨"1,500.00".data, 330, 90, 0⟩]

def c8t : CatTx :=
  { date := "2026-01-15".data, payee := "John Doe".data
    type := "Rent Income".data, description := "John Doe".data
    cashIn := 950, cashOut := 0, balance := 1500
    propertyAddress := [], propertyFullAddress := []
    category := "rent".data
    isIncome := true, isExpense := false, isDistribution := false
    amount := 950, flowType := "income".data }

theorem c8_aggregation_witness :
    ((c8t.isIncome = true ↔ (0 < c8t.cashIn ∧ c8t.cashOut = 0)) ∧
      (c8t.isExpense = true ↔ 0 < c8t.cashOut)) ∧
    (parseOwnerPacketCore [[c8hdr, c8row]]).summary.totalIncome =
      (((parseOwnerPacketCore [[c8hdr, c8row]]).allTransactions.filter
        fun t => t.isIncome).map fun t => t.cashIn).sum :=
  ⟨(c8_aggregation [[c8hdr, c8row]]).1 c8t (by decide),
   (c8_aggregation [[c8hdr, c8row]]).2.1⟩

/-!  ## Claim C5: order-independence of row clustering

For fragment sets forming two groups — same-group fragments always within
the 3-unit tolerance of each other (hence of any key the group can
produce), different-group fragments always outside it — the grouping pass
of `extractPageRows` produces exactly the two groups, in any input order.
The invariant `Inv` describes the bucket map after processing any prefix
`past` of the input. -/

/-- The term `k` behaves as a key of group `b`: every pool fragment of group `b`
is within tolerance of `k`, every other pool fragment is not. -/
def KeyFor (p : Item → Bool) (pool : List Item) (b : Bool) (k : ℚ) : Prop :=
  ∀ it ∈ pool, (p it = b → jsAbs (qsub k it.y) ≤ 3) ∧
    (p it ≠ b → ¬ jsAbs (qsub k it.y) ≤ 3)

/-- The bucket map built from `past` holds at most one bucket per group,
keyed by a key of that group, containing exactly the group's fragments of
`past` in order; buckets are present exactly for nonempty groups. -/
def Inv (p : Item → Bool) (pool : List Item) (past : List Item)
    (m : List (ℚ × List Item)) : Prop :=
  (m = [] ∧ past.filter p = [] ∧ past.filter (fun it => !p it) = []) ∨
  (∃ k, m = [(k, past.filter p)] ∧ KeyFor p pool true k ∧
    past.filter (fun it => !p it) = [] ∧ past.filter p ≠ []) ∨
  (∃ k, m = [(k, past.filter (fun it => !p it))] ∧ KeyFor p pool false k ∧
    past.filter p = [] ∧ past.filter (fun it => !p it) ≠ []) ∨
  (∃ k1 k2, KeyFor p pool true k1 ∧ KeyFor p pool false k2 ∧
    past.filter p ≠ [] ∧ past.filter (fun it => !p it) ≠ [] ∧
    (m = [(k1, past.filter p), (k2, past.filter (fun it => !p it))] ∨
     m = [(k2, past.filter (fun it => !p it)), (k1, past.filter p)]))

theorem filter_append_true {p : Item → Bool} {l : List Item} {it : Item}
    (h : p it = true) : (l ++ [it]).filter p = l.filter p ++ [it] := by
  simp [List.filter_append, List.filter_cons, h]

theorem filter_append_false {p : Item → Bool} {l : List Item} {it : Item}
    (h : p it = false) : (l ++ [it]).filter p = l.filter p := by
  simp [List.filter_append, List.filter_cons, h]

theorem inv_step {p : Item → Bool} {pool : List Item}
    (hsame : ∀ a ∈ pool, ∀ b ∈ pool, p a = p b → jsAbs (qsub a.y b.y) ≤ 3)
    (hdiff : ∀ a ∈ pool, ∀ b ∈ pool, p a ≠ p b → ¬ jsAbs (qsub a.y b.y) ≤ 3)
    {past : List Item} {m : List (ℚ × List Item)} {it : Item} (hit : it ∈ pool)
    (hI : Inv p pool past m) : Inv p pool (past ++ [it]) (addToRowMap m it) := by
  have hkey : KeyFor p pool (p it) it.y := by
    intro jt hjt
    constructor
    · intro hj
      exact hsame it hit jt hjt hj.symm
    · intro hj
      exact hdiff it hit jt hjt fun he => hj he.symm
  rcases hI with ⟨hm, hfp, hfq⟩ | ⟨k, hm, hk, hfq, hfp⟩ | ⟨k, hm, hk, hfp, hfq⟩ |
    ⟨k1, k2, hk1, hk2, hfp, hfq, hm | hm⟩
  · -- empty map: a fresh bucket for the group of `it`
    subst hm
    cases hpit : p it with
    | true =>
      refine Or.inr (Or.inl ⟨it.y, ?_, (show KeyFor p pool _ it.y by rw [← hpit]; exact hkey),
        ?_, ?_⟩)
      · simp [addToRowMap, List.filter_append, List.filter_cons, hpit, hfp]
      · simp [List.filter_append, List.filter_cons, hpit, hfq]
      · simp [List.filter_append, List.filter_cons, hpit]
    | false =>
      refine Or.inr (Or.inr (Or.inl ⟨it.y, ?_,
        (show KeyFor p pool _ it.y by rw [← hpit]; exact hkey), ?_, ?_⟩))
      · simp [addToRowMap, List.filter_append, List.filter_cons, hpit, hfq]
      · simp [List.filter_append, List.filter_cons, hpit, hfp]
      · simp [List.filter_append, List.filter_cons, hpit]
  · -- only the p-bucket exists
    subst hm
    cases hpit : p it with
    | true =>
      have hin : jsAbs (qsub k it.y) ≤ 3 := (hk it hit).1 hpit
      refine Or.inr (Or.inl ⟨k, ?_, hk, ?_, ?_⟩)
      · simp [addToRowMap, hin, List.filter_append, List.filter_cons, hpit]
      · simp [List.filter_append, List.filter_cons, hpit, hfq]
      · simp [List.filter_append, List.filter_cons, hpit]
    | false =>
      have hout : ¬ jsAbs (qsub k it.y) ≤ 3 := (hk it hit).2 (by simp [hpit])
      refine Or.inr (Or.inr (Or.inr ⟨k, it.y, hk,
        (show KeyFor p pool _ it.y by rw [← hpit]; exact hkey), ?_, ?_, Or.inl ?_⟩))
      · simpa [List.filter_append, List.filter_cons, hpit] using hfp
      · simp [List.filter_append, List.filter_cons, hpit]
      · simp [addToRowMap, hout, List.filter_append, List.filter_cons, hpit, hfq]
  · -- only the non-p-bucket exists
    subst hm
    cases hpit : p it with
    | true =>
      have hout : ¬ jsAbs (qsub k it.y) ≤ 3 := (hk it hit).2 (by simp [hpit])
      refine Or.inr (Or.inr (Or.inr ⟨it.y, k,
        (show KeyFor p pool _ it.y by rw [← hpit]; exact hkey), hk, ?_, ?_, Or.inr ?_⟩))
      · simp [List.filter_append, List.filter_cons, hpit]
      · simpa [List.filter_append, List.filter_cons, hpit] using hfq
      · simp [addToRowMap, hout, List.filter_append, List.filter_cons, hpit, hfp]
    | false =>
      have hin : jsAbs (qsub k it.y) ≤ 3 := (hk it hit).1 (by simp [hpit])
      refine Or.inr (Or.inr (Or.inl ⟨k, ?_, hk, ?_, ?_⟩))
      · simp [addToRowMap, hin, List.filter_append, List.filter_cons, hpit]
      · simp [List.filter_append, List.filter_cons, hpit, hfp]
      · simp [List.filter_append, List.filter_cons, hpit]
  · -- both buckets, p-bucket first
    subst hm
    cases hpit : p it with
    | true =>
      have hin : jsAbs (qsub k1 it.y) ≤ 3 := (hk1 it hit).1 hpit
      refine Or.inr (Or.inr (Or.inr ⟨k1, k2, hk1, hk2, ?_, ?_, Or.inl ?_⟩))
      · simp [List.filter_append, List.filter_cons, hpit]
      · simpa [List.filter_append, List.filter_cons, hpit] using hfq
      · simp [addToRowMap, hin, List.filter_append, List.filter_cons, hpit]
    | false =>
      have hout : ¬ jsAbs (qsub k1 it.y) ≤ 3 := (hk1 it hit).2 (by simp [hpit])
      have hin : jsAbs (qsub k2 it.y) ≤ 3 := (hk2 it hit).1 (by simp [hpit])
      refine Or.inr (Or.inr (Or.inr ⟨k1, k2, hk1, hk2, ?_, ?_, Or.inl ?_⟩))
      · simpa [List.filter_append, List.filter_cons, hpit] using hfp
      · simp [List.filter_append, List.filter_cons, hpit]
      · simp [addToRowMap, hout, hin, List.filter_append, List.filter_cons, hpit]
  · -- both buckets, non-p-bucket first
    subst hm
    cases hpit : p it with
    | true =>
      have hout : ¬ jsAbs (qsub k2 it.y) ≤ 3 := (hk2 it hit).2 (by simp [hpit])
      have hin : jsAbs (qsub k1 it.y) ≤ 3 := (hk1 it hit).1 hpit
      refine Or.inr (Or.inr (Or.inr ⟨k1, k2, hk1, hk2, ?_, ?_, Or.inr ?_⟩))
      · simp [List.filter_append, List.filter_cons, hpit]
      · simpa [List.filter_append, List.filter_cons, hpit] using hfq
      · simp [addToRowMap, hout, hin, List.filter_append, List.filter_cons, hpit]
    | false =>
      have hin : jsAbs (qsub k2 it.y) ≤ 3 := (hk2 it hit).1 (by simp [hpit])
      refine Or.inr (Or.inr (Or.inr ⟨k1, k2, hk1, hk2, ?_, ?_, Or.inr ?_⟩))
      · simpa [List.filter_append, List.filter_cons, hpit] using hfp
      · simp [List.filter_append, List.filter_cons, hpit]
      · simp [addToRowMap, hin, List.filter_append, List.filter_cons, hpit]

theorem inv_fold {p : Item → Bool} {pool : List Item}
    (hsame : ∀ a ∈ pool, ∀ b ∈ pool, p a = p b → jsAbs (qsub a.y b.y) ≤ 3)
    (hdiff : ∀ a ∈ pool, ∀ b ∈ pool, p a ≠ p b → ¬ jsAbs (qsub a.y b.y) ≤ 3) :
    ∀ (u past : List Item) (m : List (ℚ × List Item)),
      (∀ x ∈ u, x ∈ pool) → Inv p pool past m →
      Inv p pool (past ++ u) (u.foldl addToRowMap m) := by
  intro u
  induction u with
  | nil =>
    intro past m _ hI
    simpa using hI
  | cons x u' ih =>
    intro past m hu hI
    have hx : x ∈ pool := hu x (List.mem_cons_self _ _)
    have hstep := inv_step hsame hdiff hx hI
    have := ih (past ++ [x]) (addToRowMap m x)
      (fun z hz => hu z (List.mem_cons_of_mem _ hz)) hstep
    simpa [List.append_assoc] using this

/-- Claim C5: for every fragment list forming two clearly separated
groups (same-group fragments within the 3-unit tolerance of every key
their group can produce, the two groups mutually outside it, both groups
nonempty), `extractPageRows` yields exactly two rows whose fragment
memberships are exactly the two groups — in every input ordering, since
the hypotheses only constrain membership, not order. -/
theorem c5_rowClustering (items : List Item) (p : Item → Bool)
    (hsame : ∀ a ∈ items, ∀ b ∈ items, p a = p b → jsAbs (qsub a.y b.y) ≤ 3)
    (hdiff : ∀ a ∈ items, ∀ b ∈ items, p a ≠ p b → ¬ jsAbs (qsub a.y b.y) ≤ 3)
    (hex1 : ∃ a ∈ items, p a = true) (hex2 : ∃ b ∈ items, p b = false) :
    (extractPageRows items).length = 2 ∧
    ∃ r1 r2, extractPageRows items = [r1, r2] ∧
      ((List.Perm r1 (items.filter p) ∧
        List.Perm r2 (items.filter fun it => !p it)) ∨
       (List.Perm r1 (items.filter fun it => !p it) ∧
        List.Perm r2 (items.filter p))) := by
  have hInv : Inv p items items (rowMapOf items) := by
    have h0 : Inv p items [] [] := Or.inl ⟨rfl, rfl, rfl⟩
    have := inv_fold hsame hdiff items [] [] (fun x hx => hx) h0
    simpa [rowMapOf] using this
  have hfpne : items.filter p ≠ [] := by
    obtain ⟨a, ha, hpa⟩ := hex1
    exact List.ne_nil_of_mem (List.mem_filter.2 ⟨ha, hpa⟩)
  have hfqne : items.filter (fun it => !p it) ≠ [] := by
    obtain ⟨b, hb, hpb⟩ := hex2
    exact List.ne_nil_of_mem (List.mem_filter.2 ⟨hb, by simp [hpb]⟩)
  rcases hInv with ⟨-, h1, -⟩ | ⟨k, -, -, hq0, -⟩ | ⟨k, -, -, hp0, -⟩ |
    ⟨k1, k2, -, -, -, -, hm | hm⟩
  · exact absurd h1 hfpne
  · exact absurd hq0 hfqne
  · exact absurd hp0 hfpne
  · have hdef : extractPageRows items =
        (stableSort (fun a b => decide (b.1 ≤ a.1))
          [(k1, items.filter p), (k2, items.filter fun it => !p it)]).map
          (fun kv => stableSort (fun a b => decide (a.x ≤ b.x)) kv.2) := by
      rw [extractPageRows, hm]
    have hpp := perm_pair (stableSort_perm (fun a b => decide (b.1 ≤ a.1))
        [(k1, items.filter p), (k2, items.filter fun it => !p it)])
    rcases hpp with hs | hs
    · rw [hs] at hdef
      exact ⟨by rw [hdef]; rfl, _, _, by rw [hdef]; rfl,
        Or.inl ⟨stableSort_perm _ _, stableSort_perm _ _⟩⟩
    · rw [hs] at hdef
      exact ⟨by rw [hdef]; rfl, _, _, by rw [hdef]; rfl,
        Or.inr ⟨stableSort_perm _ _, stableSort_perm _ _⟩⟩
  · have hdef : extractPageRows items =
        (stableSort (fun a b => decide (b.1 ≤ a.1))
          [(k2, items.filter fun it => !p it), (k1, items.filter p)]).map
          (fun kv => stableSort (fun a b => decide (a.x ≤ b.x)) kv.2) := by
      rw [extractPageRows, hm]
    have hpp := perm_pair (stableSort_perm (fun a b => decide (b.1 ≤ a.1))
        [(k2, items.filter fun it => !p it), (k1, items.filter p)])
    rcases hpp with hs | hs
    · rw [hs] at hdef
      exact ⟨by rw [hdef]; rfl, _, _, by rw [hdef]; rfl,
        Or.inr ⟨stableSort_perm _ _, stableSort_perm _ _⟩⟩
    · rw [hs] at hdef
      exact ⟨by rw [hdef]; rfl, _, _, by rw [hdef]; rfl,
        Or.inl ⟨stableSort_perm _ _, stableSort_perm _ _⟩⟩

def c5items : List Item :=
  [⟨"a".data, 0, 100, 0⟩, ⟨"b".data, 0, 1, 0⟩,
   ⟨"c".data, 5, 101, 0⟩, ⟨"d".data, 5, 2, 0⟩]

def c5p : Item → Bool := fun it => decide (50 ≤ it.y)

theorem c5_rowClustering_witness :
    (extractPageRows c5items).length = 2 ∧
    ∃ r1 r2, extractPageRows c5items = [r1, r2] ∧
      ((List.Perm r1 (c5items.filter c5p) ∧
        List.Perm r2 (c5items.filter fun it => !c5p it)) ∨
       (List.Perm r1 (c5items.filter fun it => !c5p it) ∧
        List.Perm r2 (c5items.filter c5p))) :=
  c5_rowClustering c5items c5p (by decide) (by decide) (by decide) (by decide)

end OwnerPacket
